import Mathlib

/-!
Verification of the startup orchestration in `runserver.py` (PokemonGo-Map).

The file shallowly embeds the `__main__` block of `runserver.py` (lines
54-175) together with the pieces of program state the startup code touches:
the parsed location list, the account-location binding step, the shared
pause signal (a `threading.Event`), and the creation of the search thread
(real overseer or mock).  Side effects (logging, database calls, thread
creation and start, signal operations) are modelled as an explicit event
trace; Python exceptions (`NameError`, `IndexError`, `SystemExit`) are
modelled with an `Except` error channel.

Module-level code of runserver.py before `__main__` (the pgoapi presence
and version probes, lines 35-52) only inspects the installed environment
and exits before main; no claim depends on it and it is not modelled.
Logging-level configuration (lines 62-66, 73-78, 84-88) changes no state
that later code reads and contributes no events.
-/

namespace Runserver

/-- Python exceptions that the startup code can raise.  `systemExit none`
is `sys.exit()` with no argument (exit status 0); `systemExit (some c)` is
`sys.exit(c)`. -/
inductive PyError
  | nameError (n : String)
  | indexError
  | systemExit (code : Option Nat)
  deriving DecidableEq

/-- The exit status of the process when the `__main__` block ends with an
uncaught exception: `SystemExit` carries its code (`None` gives status 0);
any other uncaught exception makes the interpreter exit with status 1. -/
def runExitCode : Except PyError Unit → Option Nat
  | .error (.systemExit none) => some 0
  | .error (.systemExit (some c)) => some c
  | .error _ => some 1
  | .ok _ => none

/-- Whether the run ended in a process exit with a non-zero status. -/
def exitedNonZero (r : Except PyError Unit) : Bool :=
  match runExitCode r with
  | some c => c != 0
  | none => false

/-- The coordinate payload of a would-be Location object.  Line 99 builds
it from the two regex groups (kept as the matched strings), line 102 from
the geocoding lookup; we record the query string handed to
`util.get_pos_by_name` so that theorems can speak about which argument the
lookup received. -/
inductive Position
  | coords (lat lng : String) (alt : Nat)
  | geocoded (query : String)
  deriving DecidableEq

/-- A Location: its position and the optional bound account
(`add_account`, line 112). -/
structure Loc where
  pos : Position
  account : Option String
  deriving DecidableEq

/-- Modelled from the spec: the `add_account` method of the location
object lives in the absent `pogom` package; per the spec a Location
"optionally holds zero-or-one bound Account" and binder "assignment is
1:1", so `add_account` attaches the given account to the location. -/
def add_account (l : Loc) (a : String) : Loc :=
  { l with account := some a }

/-- Thread targets that `__main__` can hand to `Thread(...)`
(lines 148 and 153). -/
inductive TargetFn
  | search_overseer_thread
  | fake_search_loop
  deriving DecidableEq

/-- The values passed in the `args=` tuple of a `Thread(...)` call.  The
pause signal is identified by its allocation id so that reference sharing
is visible. -/
inductive ThreadArg
  | argsRef
  | locationsRef (locs : List Loc)
  | signalRef (id : Nat)
  | encPathRef
  deriving DecidableEq

/-- Observable side effects of the startup code, in program order. -/
inductive Event
  | logDebug (msg : String)
  | logInfo (msg : String)
  | logWarning (msg : String)
  | logError (msg : String)
  | logCritical (msg : String)
  | configSet (key : String)
  | geocodeCall (arg : String)
  | initDB
  | dropTables
  | removeDbFile
  | createTables
  | setLocations (locs : List Loc)
  | signalAlloc (id : Nat)
  | signalClear (id : Nat)
  | signalSet (id : Nat)
  | signalTest (id : Nat)
  | insertMockData (loc : Loc)
  | threadCreate (target : TargetFn) (targs : List ThreadArg)
  | threadStart (target : TargetFn) (targs : List ThreadArg)
  | setSearchControl (id : Nat)
  | corsInit
  | cacheBust
  | sleepLoop
  | appRun
  deriving DecidableEq

/-- Command-line arguments consumed by the modelled part of `__main__`.
Fields that only choose logging verbosity or opaque config values
(`debug`, `locale`, `china`, `gmaps_key`, `host`, `port`, `db`) do not
influence any event shape the claims mention and are elided; the config
assignments they feed are still recorded as `configSet` events. -/
structure Args where
  location : String
  accounts : List String
  mock : Bool
  only_server : Bool
  no_server : Bool
  cors : Bool
  clear_db : Bool
  db_type : String
  no_pokemon : Bool
  no_pokestops : Bool
  no_gyms : Bool
  deriving DecidableEq

/-- External environment probed by `__main__`: the encryption library path
(line 56), whether `static/dist` exists (line 69), and whether the
database file exists (line 134). -/
structure Env where
  encryption_lib_path : String
  static_dist_exists : Bool
  db_file_exists : Bool
  deriving DecidableEq

/-! ### String splitting (line 92: `args.location.split("|")`) -/

/-- Python `str.split("|")`: split on every occurrence of the one-character
separator; the result is never empty (`"".split("|") == [""]`). -/
def splitPipe : List Char → List (List Char)
  | [] => [[]]
  | c :: cs =>
    if c = '|' then [] :: splitPipe cs
    else
      match splitPipe cs with
      | [] => [[c]]
      | h :: t => (c :: h) :: t

def pySplit (s : String) : List String :=
  (splitPipe s.data).map List.asString

theorem splitPipe_ne_nil (cs : List Char) : splitPipe cs ≠ [] := by
  cases cs with
  | nil => simp [splitPipe]
  | cons c cs =>
    simp only [splitPipe]
    split
    · simp
    · split <;> simp

theorem pySplit_ne_nil (s : String) : pySplit s ≠ [] := by
  unfold pySplit
  intro h
  exact splitPipe_ne_nil s.data (List.map_eq_nil_iff.mp h)

/-! ### The coordinate regex (line 91)

`^(-?\d+\.\d+),?\s?(-?\d+\.\d+)$`, applied with `re.match`.  The
character classes `,?`, `\s?`, `-?`, `\d+` are pairwise disjoint from what
follows them, so the greedy regex engine is equivalent to the
deterministic descent below.  `\d` is modelled as the ASCII digits and
`\s` as the ASCII whitespace class; `$` also matches just before one
trailing newline, as in Python. -/

def spanDigits : List Char → List Char × List Char
  | [] => ([], [])
  | c :: rest =>
    if c.isDigit then
      let p := spanDigits rest
      (c :: p.1, p.2)
    else ([], c :: rest)

/-- One `-?\d+\.\d+` group: returns the matched characters and the rest. -/
def matchNumber (cs : List Char) : Option (List Char × List Char) :=
  let sp : List Char × List Char :=
    match cs with
    | '-' :: rest => (['-'], rest)
    | _ => ([], cs)
  let d1 := spanDigits sp.2
  if d1.1 = [] then none
  else
    match d1.2 with
    | '.' :: cs3 =>
      let d2 := spanDigits cs3
      if d2.1 = [] then none
      else some (sp.1 ++ d1.1 ++ '.' :: d2.1, d2.2)
    | _ => none

def isReSpace (c : Char) : Bool :=
  c = ' ' || c = '\t' || c = '\n' || c = '\r' || c = '\x0b' || c = '\x0c'

/-- Result of `prog.match(location)`: `some (group1, group2)` on a match,
else `none`. -/
def coordMatch (s : String) : Option (String × String) :=
  match matchNumber s.data with
  | none => none
  | some (g1, rest1) =>
    let rest2 := match rest1 with
      | ',' :: r => r
      | _ => rest1
    let rest3 := match rest2 with
      | c :: r => if isReSpace c then r else rest2
      | [] => rest2
    match matchNumber rest3 with
    | none => none
    | some (g2, rest4) =>
      if rest4 = [] ∨ rest4 = ['\n'] then some (g1.asString, g2.asString)
      else none

/-! ### Name resolution for `PogoWorker` (lines 99 and 102)

The names bound at module level or earlier in `__main__` of
`runserver.py` when line 99 first executes.  `PogoWorker` is not among
them: it is neither imported (lines 4-23, 43-44) nor assigned anywhere in
the file.  Python resolves the callee of a call expression before
evaluating its arguments, so the missing name raises `NameError` before
`util.get_pos_by_name` could run. -/

def definedNames : List String :=
  ["os", "sys", "shutil", "logging", "time", "re", "StrictVersion",
   "Thread", "Event", "Queue", "CORS", "init_cache_busting", "config",
   "Pogom", "get_args", "insert_mock_data", "get_encryption_lib_path",
   "search_overseer_thread", "fake_search_loop", "init_database",
   "create_tables", "drop_tables", "pgoapi_version", "log",
   "oldpgoapiPath", "pgoapi", "util", "encryption_lib_path", "args",
   "prog", "parsed_locations", "locations", "location", "res",
   "position", "float", "len", "enumerate"]

def lookupName (n : String) : Except PyError Unit :=
  if definedNames.contains n then .ok () else .error (.nameError n)

theorem lookup_pogoworker :
    lookupName "PogoWorker" = .error (.nameError "PogoWorker") := rfl

def dbgCoords : String := "Using coordinates from CLI directly"
def dbgApi : String := "Looking up coordinates in API"

/-- Lines 93-103: the location parsing loop, faithful to evaluation order.
In both branches the callee name `PogoWorker` is resolved before its
argument expressions are evaluated, so on the resolution failure the
geocode call of the else-branch is never issued. -/
def parseLoop (locArg : String) : List String → List Event × Except PyError (List Loc)
  | [] => ([], .ok [])
  | loc :: rest =>
    match coordMatch loc with
    | some (g1, g2) =>
      match lookupName "PogoWorker" with
      | .error e => ([.logDebug dbgCoords], .error e)
      | .ok _ =>
        let r := parseLoop locArg rest
        (.logDebug dbgCoords :: r.1,
         r.2.map (fun ls => Loc.mk (.coords g1 g2 0) none :: ls))
    | none =>
      match lookupName "PogoWorker" with
      | .error e => ([.logDebug dbgApi], .error e)
      | .ok _ =>
        let r := parseLoop locArg rest
        (.logDebug dbgApi :: .geocodeCall locArg :: r.1,
         r.2.map (fun ls => Loc.mk (.geocoded locArg) none :: ls))

/-- The Location the loop body builds for one element, with the
constructor name resolved. -/
def locOf (locArg loc : String) : Loc :=
  match coordMatch loc with
  | some (g1, g2) => Loc.mk (.coords g1 g2 0) none
  | none => Loc.mk (.geocoded locArg) none

/-- Lines 93-103 with the Location constructor name abstracted away: the
per-element dataflow of the loop as it stands in the source, used to
examine which argument the geocoding lookup receives (line 102 passes
`args.location`, not the loop variable `location`).  The resolution
failure of the constructor name itself is the subject of `parseLoop`. -/
def parseLoopResolved (locArg : String) : List String → List Event × List Loc
  | [] => ([], [])
  | loc :: rest =>
    let r := parseLoopResolved locArg rest
    match coordMatch loc with
    | some (g1, g2) =>
      (.logDebug dbgCoords :: r.1, Loc.mk (.coords g1 g2 0) none :: r.2)
    | none =>
      (.logDebug dbgApi :: .geocodeCall locArg :: r.1,
       Loc.mk (.geocoded locArg) none :: r.2)

/-! ### Account-location binding (lines 105-112)

```text
if len(args.accounts) < len(locations):
    log.warning(<the accWarnMsg text below>)
    while len(args.accounts) < len(locations):
        locations.pop()
for i, account in enumerate(args.accounts):
    locations[i].add_account(account)
```

The `while` loop repeatedly drops the last element; the `for` loop indexes
`locations[i]` for every account, raising `IndexError` when an index is
out of range.  The list mutation is modelled by state passing: the value
paired with the events is the `locations` list as it stands after the
step. -/

def accWarnMsg : String :=
  "Provided fever accounts than locations. Removing extra locations.."

/-- One bounded unrolling of
`while len(args.accounts) < len(locations): locations.pop()`. -/
def popLoopFuel : Nat → Nat → List Loc → List Loc
  | 0, _, locs => locs
  | fuel + 1, nA, locs =>
    if nA < locs.length then popLoopFuel fuel nA locs.dropLast else locs

/-- The `while` loop at lines 108-109.  Every iteration shortens the list
by one element, so the guard `len(accounts) < len(locations)` must fail
within `locs.length` iterations; the fuel makes the recursion structural
without changing the computed value. -/
def popLoop (nA : Nat) (locs : List Loc) : List Loc :=
  popLoopFuel locs.length nA locs

/-- The `for i, account in enumerate(args.accounts)` loop starting at
index `i`; `locations[i]` raises `IndexError` when `i` is out of range. -/
def addAccountsLoop : List String → Nat → List Loc → Except PyError (List Loc)
  | [], _, locs => .ok locs
  | a :: rest, i, locs =>
    if h : i < locs.length then
      addAccountsLoop rest (i + 1) (locs.set i (add_account locs[i] a))
    else .error .indexError

/-- Lines 105-112 as one step on the `locations` state. -/
def bindAccounts (accounts : List String) (locations : List Loc) :
    List Event × Except PyError (List Loc) :=
  if accounts.length < locations.length then
    ([.logWarning accWarnMsg], addAccountsLoop accounts 0 (popLoop accounts.length locations))
  else
    ([], addAccountsLoop accounts 0 locations)

theorem popLoopFuel_eq_take :
    ∀ (k : Nat) (locs : List Loc), locs.length ≤ k →
      ∀ n, n ≤ locs.length → popLoopFuel k n locs = locs.take n := by
  intro k
  induction k with
  | zero =>
    intro locs hk n hn
    have h0 : locs.length = 0 := Nat.le_zero.mp hk
    have hn0 : n = 0 := Nat.le_zero.mp (h0 ▸ hn)
    rw [popLoopFuel]
    simp [hn0, List.length_eq_zero.mp h0]
  | succ k ih =>
    intro locs hk n hn
    rw [popLoopFuel]
    by_cases hlt : n < locs.length
    · rw [if_pos hlt]
      have hd : locs.dropLast.length = locs.length - 1 := List.length_dropLast locs
      have h1 : locs.dropLast.length ≤ k := by omega
      have h2 : n ≤ locs.dropLast.length := by omega
      rw [ih locs.dropLast h1 n h2, List.dropLast_eq_take, List.take_take]
      congr 1
      omega
    · have heq : n = locs.length := by omega
      rw [if_neg hlt, heq, List.take_length]

theorem popLoop_eq_take (locs : List Loc) (n : Nat) (h : n ≤ locs.length) :
    popLoop n locs = locs.take n :=
  popLoopFuel_eq_take locs.length locs le_rfl n h

theorem getElem_append_len (pre : List Loc) (x : Loc) (suf : List Loc)
    (h : pre.length < (pre ++ x :: suf).length) :
    (pre ++ x :: suf)[pre.length] = x := by
  induction pre with
  | nil => rfl
  | cons p ps ih => simpa using ih (by simp)

theorem set_append_len (pre : List Loc) (x y : Loc) (suf : List Loc) :
    (pre ++ x :: suf).set pre.length y = pre ++ y :: suf := by
  induction pre with
  | nil => rfl
  | cons p ps ih => simp [List.set, ih]

theorem addAccountsLoop_append (accts : List String) :
    ∀ (pre suf : List Loc), suf.length = accts.length →
      addAccountsLoop accts pre.length (pre ++ suf) =
        .ok (pre ++ List.zipWith add_account suf accts) := by
  induction accts with
  | nil =>
    intro pre suf h
    rw [List.length_eq_zero.mp h]
    simp [addAccountsLoop]
  | cons a rest ih =>
    intro pre suf h
    cases suf with
    | nil => simp at h
    | cons s ss =>
      have hlt : pre.length < (pre ++ s :: ss).length := by simp
      rw [addAccountsLoop, dif_pos hlt]
      rw [getElem_append_len pre s ss hlt, set_append_len pre s (add_account s a) ss]
      have hss : ss.length = rest.length := by simpa using h
      have step := ih (pre ++ [add_account s a]) ss (by simpa using hss)
      rw [List.length_append, List.length_singleton] at step
      rw [show pre ++ add_account s a :: ss = (pre ++ [add_account s a]) ++ ss by simp]
      rw [step]
      simp [List.zipWith]

theorem bindAccounts_ok (accts : List String) (locs : List Loc)
    (h : accts.length ≤ locs.length) :
    bindAccounts accts locs =
      ((if accts.length < locs.length then [Event.logWarning accWarnMsg] else []),
       .ok (List.zipWith add_account (locs.take accts.length) accts)) := by
  unfold bindAccounts
  by_cases hlt : accts.length < locs.length
  · rw [if_pos hlt, if_pos hlt, popLoop_eq_take locs accts.length (le_of_lt hlt)]
    have hlen : (locs.take accts.length).length = accts.length := by
      simp [List.length_take]
      omega
    have := addAccountsLoop_append accts [] (locs.take accts.length) hlen
    simpa using this
  · have heq : accts.length = locs.length := le_antisymm h (not_lt.mp hlt)
    rw [if_neg hlt, if_neg hlt]
    have := addAccountsLoop_append accts [] locs heq.symm
    simp only [List.nil_append, List.length_nil] at this
    rw [this, show locs.take accts.length = locs by rw [heq, List.take_length]]

/-! ### Startup after binding (lines 114-175)

Line 114 `if not locations:` aborts with `log.error` and a bare
`sys.exit()` when the bound list is empty.  Otherwise the code logs the
disabled-parsing notices (118-123), sets config (125-126), creates the
app and database (128-136), hands the location list to the app (138),
allocates and clears the pause `Event` (140-142), starts the search
thread unless `--only-server` (144-157), optionally enables CORS
(159-160), installs cache busting (163), hands the pause signal to the
control surface (165), sets more config (167-168) and finally either
sleep-loops or runs the web app (170-175).  The single `Event()`
allocation is given id 0. -/

def optEv (b : Bool) (e : Event) : List Event :=
  match b with
  | true => [e]
  | false => []

theorem mem_optEv {b : Bool} {e x : Event} (h : x ∈ optEv b e) : x = e := by
  cases b with
  | true => simpa [optEv] using h
  | false => simp [optEv] at h

/-- Lines 130-135: the `--clear-db` block. -/
def clearDbEvents (args : Args) (env : Env) : List Event :=
  match args.clear_db with
  | true =>
    Event.logInfo "Clearing database" ::
      (if args.db_type = "mysql" then [Event.dropTables]
       else if env.db_file_exists then [Event.removeDbFile] else [])
  | false => []

theorem mem_clearDbEvents {args : Args} {env : Env} {x : Event}
    (h : x ∈ clearDbEvents args env) :
    x = .logInfo "Clearing database" ∨ x = .dropTables ∨ x = .removeDbFile := by
  unfold clearDbEvents at h
  cases hc : args.clear_db with
  | false => rw [hc] at h; simp at h
  | true =>
    rw [hc] at h
    simp only [List.mem_cons] at h
    rcases h with h | h
    · exact Or.inl h
    · split at h
      · simp at h; exact Or.inr (Or.inl h)
      · split at h
        · simp at h; exact Or.inr (Or.inr h)
        · simp at h

/-- Lines 118-138: everything between the emptiness check and the pause
signal allocation. -/
def aEvents (args : Args) (env : Env) (locs : List Loc) : List Event :=
  optEv args.no_pokemon (.logInfo "Parsing of Pokemon disabled") ++
  optEv args.no_pokestops (.logInfo "Parsing of Pokestops disabled") ++
  optEv args.no_gyms (.logInfo "Parsing of Gyms disabled") ++
  [.configSet "LOCALE", .configSet "CHINA", .initDB] ++
  clearDbEvents args env ++
  [.createTables, .setLocations locs]

/-- Lines 144-157: the search-thread block.  `locations` is non-empty
here (guarded by line 114), with head `l0`; the real branch passes
`(args, locations, pause_bit, encryption_lib_path)` to the thread, the
mock branch first calls `insert_mock_data(locations[0])` and passes no
arguments at all to `fake_search_loop`. -/
def startSearch (args : Args) (l0 : Loc) (locs : List Loc) : List Event :=
  match args.only_server with
  | true => []
  | false =>
    match args.mock with
    | false =>
      [.logDebug "Starting a real search thread",
       .threadCreate .search_overseer_thread
         [.argsRef, .locationsRef locs, .signalRef 0, .encPathRef],
       .threadStart .search_overseer_thread
         [.argsRef, .locationsRef locs, .signalRef 0, .encPathRef]]
    | true =>
      [.logDebug "Starting a fake search thread",
       .insertMockData l0,
       .threadCreate .fake_search_loop [],
       .threadStart .fake_search_loop []]

/-- Lines 159-175: CORS, cache busting, `app.set_search_control`, final
config and the run loop. -/
def bEvents (args : Args) : List Event :=
  optEv args.cors .corsInit ++
  [.cacheBust, .setSearchControl 0, .configSet "ROOT_PATH", .configSet "GMAPS_KEY"] ++
  (match args.no_server with
   | true => [.sleepLoop]
   | false => [.appRun])

/-- Lines 114-175, as a function of the `locations` state left by the
binding step. -/
def startupTail (args : Args) (env : Env) (locations : List Loc) :
    List Event × Except PyError Unit :=
  match locations with
  | [] => ([.logError "Could not initialize locations, aborting"],
           .error (.systemExit none))
  | l0 :: rest =>
    (aEvents args env (l0 :: rest) ++
       [.signalAlloc 0, .signalClear 0] ++
       startSearch args l0 (l0 :: rest) ++
       bEvents args,
     .ok ())

/-- Lines 80-82: the three config assignments for parse_pokemon,
parse_pokestops and parse_gyms. -/
def cfgEvents : List Event :=
  [.configSet "parse_pokemon", .configSet "parse_pokestops", .configSet "parse_gyms"]

/-- Lines 54-175, with the environment probes parameterised: the
encryption-library check (56-58), the front-end assets check (68-71),
config assignment (80-82), the location parse loop (91-103), the binding
step (105-112) and the startup tail (114-175). -/
def pyMain (env : Env) (args : Args) : List Event × Except PyError Unit :=
  if env.encryption_lib_path = "" then ([], .error (.systemExit (some 1)))
  else if !args.no_server && !env.static_dist_exists then
    ([.logCritical "Missing front-end assets (static/dist) -- please run \"npm install && npm run build\" before starting the server"],
     .error (.systemExit none))
  else
    match parseLoop args.location (pySplit args.location) with
    | (evs, .error e) => (cfgEvents ++ evs, .error e)
    | (evs, .ok locations) =>
      match bindAccounts args.accounts locations with
      | (evs2, .error e) => (cfgEvents ++ evs ++ evs2, .error e)
      | (evs2, .ok locations2) =>
        (cfgEvents ++ evs ++ evs2 ++ (startupTail args env locations2).1,
         (startupTail args env locations2).2)

/-! ### Trace observers -/

/-- Events that neither touch the pause signal nor threads nor the mock
insert: log lines, config assignment, database calls and the location
handoff.  Everything in `aEvents` is of this kind. -/
def isPlainA : Event → Bool
  | .logDebug _ | .logInfo _ | .logWarning _ | .logError _ | .logCritical _
  | .configSet _ | .geocodeCall _ | .initDB | .dropTables | .removeDbFile
  | .createTables | .setLocations _ => true
  | _ => false

def insertPick : Event → Option Loc
  | .insertMockData l => some l
  | _ => none

def threadCreatePick : Event → Option (TargetFn × List ThreadArg)
  | .threadCreate t a => some (t, a)
  | _ => none

def threadStartPick : Event → Option (TargetFn × List ThreadArg)
  | .threadStart t a => some (t, a)
  | _ => none

def fakeCreatePick : Event → Option (List ThreadArg)
  | .threadCreate .fake_search_loop a => some a
  | _ => none

def fakeStartPick : Event → Option (List ThreadArg)
  | .threadStart .fake_search_loop a => some a
  | _ => none

def overseerCreatePick : Event → Option (List ThreadArg)
  | .threadCreate .search_overseer_thread a => some a
  | _ => none

def allocPick : Event → Option Nat
  | .signalAlloc i => some i
  | _ => none

def scPick : Event → Option Nat
  | .setSearchControl i => some i
  | _ => none

def geoPick : Event → Option String
  | .geocodeCall q => some q
  | _ => none

def isSigClearEv : Event → Bool
  | .signalClear _ => true
  | _ => false

def isSigSetEv : Event → Bool
  | .signalSet _ => true
  | _ => false

/-- Operations on an already-allocated signal object: `set`, `clear`,
`test` (`is_set`). -/
def isSigMutEv : Event → Bool
  | .signalClear _ | .signalSet _ | .signalTest _ => true
  | _ => false

def isThreadCreateEv : Event → Bool
  | .threadCreate _ _ => true
  | _ => false

def isThreadStartEv : Event → Bool
  | .threadStart _ _ => true
  | _ => false

def isInsertEv : Event → Bool
  | .insertMockData _ => true
  | _ => false

/-- Holds when the trace clears a pause signal strictly before every
thread creation and start, and all three kinds of event occur. -/
def clearPrecedesThreads (evs : List Event) : Bool :=
  ((evs.takeWhile fun e => !isSigClearEv e).all
      fun e => !isThreadCreateEv e && !isThreadStartEv e) &&
    evs.any isSigClearEv && evs.any isThreadCreateEv && evs.any isThreadStartEv

/-- Holds when the trace performs a mock-data insert strictly before every
thread creation and start, and an insert and a start occur. -/
def insertPrecedesThreads (evs : List Event) : Bool :=
  ((evs.takeWhile fun e => !isInsertEv e).all
      fun e => !isThreadCreateEv e && !isThreadStartEv e) &&
    evs.any isInsertEv && evs.any isThreadStartEv

/-! ### Generic list helpers -/

theorem filterMap_eq_nil_of {α β : Type} {f : α → Option β} :
    ∀ {l : List α}, (∀ a ∈ l, f a = none) → l.filterMap f = [] := by
  intro l h
  induction l with
  | nil => rfl
  | cons a t ih =>
    rw [List.filterMap_cons, h a (by simp)]
    exact ih fun x hx => h x (by simp [hx])

theorem takeWhile_append_all {α : Type} {p : α → Bool} :
    ∀ {xs : List α} (ys : List α), (∀ x ∈ xs, p x = true) →
      (xs ++ ys).takeWhile p = xs ++ ys.takeWhile p := by
  intro xs
  induction xs with
  | nil => simp
  | cons a t ih =>
    intro ys h
    have ha : p a = true := h a (by simp)
    simp only [List.cons_append, List.takeWhile_cons, ha, if_true]
    rw [ih ys fun x hx => h x (by simp [hx])]

/-! ### Segment classification lemmas -/

theorem isPlainA_of_mem_aEvents {args : Args} {env : Env} {locs : List Loc}
    {e : Event} (h : e ∈ aEvents args env locs) : isPlainA e = true := by
  unfold aEvents at h
  simp only [List.append_assoc, List.mem_append] at h
  rcases h with h | h | h | h | h | h
  · rw [mem_optEv h]; rfl
  · rw [mem_optEv h]; rfl
  · rw [mem_optEv h]; rfl
  · simp only [List.mem_cons, List.not_mem_nil, or_false] at h
    rcases h with h | h | h <;> subst h <;> rfl
  · rcases mem_clearDbEvents h with h | h | h <;> subst h <;> rfl
  · simp only [List.mem_cons, List.not_mem_nil, or_false] at h
    rcases h with h | h <;> subst h <;> rfl

theorem mem_bEvents {args : Args} {e : Event} (h : e ∈ bEvents args) :
    e = .corsInit ∨ e = .cacheBust ∨ e = .setSearchControl 0 ∨
      e = .configSet "ROOT_PATH" ∨ e = .configSet "GMAPS_KEY" ∨
      e = .sleepLoop ∨ e = .appRun := by
  unfold bEvents at h
  simp only [List.append_assoc, List.mem_append] at h
  rcases h with h | h | h
  · exact Or.inl (mem_optEv h)
  · simp only [List.mem_cons, List.not_mem_nil, or_false] at h
    tauto
  · cases hn : args.no_server <;> rw [hn] at h <;> simp only [List.mem_cons,
      List.not_mem_nil, or_false] at h <;> tauto

theorem fm_aEvents {β : Type} (f : Event → Option β)
    (hf : ∀ e, isPlainA e = true → f e = none)
    (args : Args) (env : Env) (locs : List Loc) :
    (aEvents args env locs).filterMap f = [] :=
  filterMap_eq_nil_of fun e he => hf e (isPlainA_of_mem_aEvents he)

theorem fm_bEvents {β : Type} (f : Event → Option β)
    (h1 : f .corsInit = none) (h2 : f .cacheBust = none)
    (h3 : f (.setSearchControl 0) = none)
    (h4 : f (.configSet "ROOT_PATH") = none)
    (h5 : f (.configSet "GMAPS_KEY") = none)
    (h6 : f .sleepLoop = none) (h7 : f .appRun = none) (args : Args) :
    (bEvents args).filterMap f = [] := by
  refine filterMap_eq_nil_of fun e he => ?_
  rcases mem_bEvents he with h | h | h | h | h | h | h <;> subst h <;> assumption

theorem scs_bEvents (args : Args) : (bEvents args).filterMap scPick = [0] := by
  unfold bEvents
  cases hc : args.cors <;> cases hn : args.no_server <;>
    simp [optEv, List.filterMap_cons, scPick]

theorem plainA_insertPick (e : Event) (h : isPlainA e = true) : insertPick e = none := by
  cases e <;> simp_all [isPlainA, insertPick]

theorem plainA_threadCreatePick (e : Event) (h : isPlainA e = true) :
    threadCreatePick e = none := by
  cases e <;> simp_all [isPlainA, threadCreatePick]

theorem plainA_threadStartPick (e : Event) (h : isPlainA e = true) :
    threadStartPick e = none := by
  cases e <;> simp_all [isPlainA, threadStartPick]

theorem plainA_fakeCreatePick (e : Event) (h : isPlainA e = true) :
    fakeCreatePick e = none := by
  cases e <;> simp_all [isPlainA, fakeCreatePick]

theorem plainA_fakeStartPick (e : Event) (h : isPlainA e = true) :
    fakeStartPick e = none := by
  cases e <;> simp_all [isPlainA, fakeStartPick]

theorem plainA_overseerCreatePick (e : Event) (h : isPlainA e = true) :
    overseerCreatePick e = none := by
  cases e <;> simp_all [isPlainA, overseerCreatePick]

theorem plainA_allocPick (e : Event) (h : isPlainA e = true) : allocPick e = none := by
  cases e <;> simp_all [isPlainA, allocPick]

theorem plainA_scPick (e : Event) (h : isPlainA e = true) : scPick e = none := by
  cases e <;> simp_all [isPlainA, scPick]

theorem plainA_noSigMut (e : Event) (h : isPlainA e = true) : isSigMutEv e = false := by
  cases e <;> simp_all [isPlainA, isSigMutEv]

theorem plainA_noSigClear (e : Event) (h : isPlainA e = true) : isSigClearEv e = false := by
  cases e <;> simp_all [isPlainA, isSigClearEv]

theorem plainA_noSigSet (e : Event) (h : isPlainA e = true) : isSigSetEv e = false := by
  cases e <;> simp_all [isPlainA, isSigSetEv]

theorem plainA_noThreadCreate (e : Event) (h : isPlainA e = true) :
    isThreadCreateEv e = false := by
  cases e <;> simp_all [isPlainA, isThreadCreateEv]

theorem plainA_noThreadStart (e : Event) (h : isPlainA e = true) :
    isThreadStartEv e = false := by
  cases e <;> simp_all [isPlainA, isThreadStartEv]

theorem plainA_noInsert (e : Event) (h : isPlainA e = true) : isInsertEv e = false := by
  cases e <;> simp_all [isPlainA, isInsertEv]

/-! ### Sample concrete inputs used by witnesses and counterexamples -/

def loc0 : Loc := Loc.mk (.coords "40.7" "-74.0" 0) none
def loc1 : Loc := Loc.mk (.geocoded "central park") none

def env0 : Env := Env.mk "libencrypt.so" true false

/-- Real-search configuration: one location, one account, no mock. -/
def argsReal : Args :=
  Args.mk "40.7,-74.0" ["user1:pass1"] false false false false false "sqlite"
    false false false

/-- Mock-mode configuration. -/
def argsMock : Args :=
  Args.mk "40.7,-74.0" ["user1:pass1"] true false false false false "sqlite"
    false false false

/-! ### Claim theorems -/

/-- Claim C1: the claim states that for every Location sequence L and
Account sequence A the binding step produces exactly min(len L, len A)
pairs, pairing index-wise, and in particular completes without error when
len A > len L.  The code does not: when more accounts than locations are
supplied, the truncation guard at line 106 does not fire, and the loop at
line 111 evaluates `locations[i]` for `i = len(locations)`, raising
`IndexError`.  This theorem evaluates the embedded binder at the failing
input (one location, two accounts). -/
theorem extra_accounts_index_error :
    bindAccounts ["first:pw", "second:pw"] [loc0] = ([], .error .indexError) := rfl

/-- Claim C4: whenever fewer accounts than locations are supplied, the
binding step logs exactly the warning of line 107 and keeps exactly the
length-`len A` prefix of the locations, each paired index-wise with its
account; the excess trailing locations are dropped. -/
theorem dropped_trailing_locations (locs : List Loc) (accts : List String)
    (h : accts.length < locs.length) :
    bindAccounts accts locs =
      ([Event.logWarning accWarnMsg],
       .ok (List.zipWith add_account (locs.take accts.length) accts)) ∧
    (List.zipWith add_account (locs.take accts.length) accts).length = accts.length := by
  constructor
  · rw [bindAccounts_ok accts locs (le_of_lt h), if_pos h]
  · simp only [List.length_zipWith, List.length_take]
    omega

theorem dropped_trailing_locations_witness :
    bindAccounts ["acct:pw"] [loc0, loc1] =
      ([Event.logWarning accWarnMsg],
       .ok (List.zipWith add_account ([loc0, loc1].take 1) ["acct:pw"])) ∧
    (List.zipWith add_account ([loc0, loc1].take 1) ["acct:pw"]).length = 1 :=
  dropped_trailing_locations [loc0, loc1] ["acct:pw"] (by decide)

/-- Claim C5 counterexample: binding is claimed to be pure, leaving its
input sequences and their elements unchanged and returning the pairing as
a value.  At the concrete input (two locations, one account) the
`locations` state after the binding step is `[add_account loc0 "acct:pw"]`,
which differs from the input list `[loc0, loc1]` (the second location was
popped, line 109) and whose element differs from the input element `loc0`
(the account was attached in place, line 112). -/
theorem binding_not_pure_cex :
    bindAccounts ["acct:pw"] [loc0, loc1] =
      ([Event.logWarning accWarnMsg], .ok [add_account loc0 "acct:pw"]) ∧
    [add_account loc0 "acct:pw"] ≠ [loc0, loc1] ∧
    add_account loc0 "acct:pw" ≠ loc0 := by
  refine ⟨?_, by decide, by decide⟩
  have h := bindAccounts_ok ["acct:pw"] [loc0, loc1] (by decide)
  simpa using h

/-- Claim C5 (amended): binding is not pure; it is performed by mutating
the `locations` state in place.  After the step the locations state equals
the account-bound transform of the kept prefix, and whenever fewer
accounts than locations were supplied this state is strictly shorter than
the input list, so the inputs are not left unchanged. -/
theorem binding_mutates_state (locs : List Loc) (accts : List String)
    (h : accts.length ≤ locs.length) :
    (bindAccounts accts locs).2 =
      .ok (List.zipWith add_account (locs.take accts.length) accts) ∧
    (accts.length < locs.length →
      (List.zipWith add_account (locs.take accts.length) accts).length ≠ locs.length) := by
  constructor
  · rw [bindAccounts_ok accts locs h]
  · intro hlt
    simp only [List.length_zipWith, List.length_take]
    omega

theorem binding_mutates_state_witness :
    (bindAccounts ["acct:pw"] [loc0, loc1]).2 =
      .ok (List.zipWith add_account ([loc0, loc1].take 1) ["acct:pw"]) ∧
    (1 < 2 →
      (List.zipWith add_account ([loc0, loc1].take 1) ["acct:pw"]).length ≠ 2) :=
  binding_mutates_state [loc0, loc1] ["acct:pw"] (by decide)

/-- Claim C3 counterexample: with zero bound pairs the code logs the
error of line 115 and calls bare `sys.exit()` (line 116), i.e. raises
`SystemExit(None)`; the resulting process exit status is 0, so the
claimed non-zero exit code does not hold. -/
theorem empty_binding_exit_code_zero_cex :
    (startupTail argsReal env0 []).2 = .error (.systemExit none) ∧
    runExitCode (startupTail argsReal env0 []).2 = some 0 ∧
    exitedNonZero (startupTail argsReal env0 []).2 = false :=
  ⟨rfl, rfl, rfl⟩

/-- Claim C3 (amended): whenever zero bound pairs exist after binding,
startup is refused: the fatal configuration error of line 115 is logged,
no thread is created or started, and the process exits via bare
`sys.exit()` — that is, with exit status 0, not a non-zero code. -/
theorem empty_binding_aborts (args : Args) (env : Env) :
    startupTail args env [] =
      ([.logError "Could not initialize locations, aborting"],
       .error (.systemExit none)) ∧
    runExitCode (startupTail args env []).2 = some 0 ∧
    (startupTail args env []).1.filterMap threadCreatePick = [] ∧
    (startupTail args env []).1.filterMap threadStartPick = [] :=
  ⟨rfl, rfl, rfl, rfl⟩

def isLogEv : Event → Bool
  | .logDebug _ | .logInfo _ | .logWarning _ | .logError _ | .logCritical _ => true
  | _ => false

theorem parseLoop_cons_err (locArg loc : String) (rest : List String) :
    ∃ m, parseLoop locArg (loc :: rest) =
      ([Event.logDebug m], .error (.nameError "PogoWorker")) := by
  cases hm : coordMatch loc with
  | none => exact ⟨dbgApi, by simp [parseLoop, hm, lookup_pogoworker]⟩
  | some p =>
    obtain ⟨g1, g2⟩ := p
    exact ⟨dbgCoords, by simp [parseLoop, hm, lookup_pogoworker]⟩

/-- Claim C2: for every run that reaches the location loop (the
encryption library was found and, unless `--no-server`, the front-end
assets exist), and any non-empty location argument, `__main__` raises an
unhandled `NameError` for `PogoWorker`: its whole event trace is the
three config assignments of lines 80-82 followed by the log lines of the
parse loop — which are pure log events — so neither the binding step nor
the pause-signal creation nor any thread start is reached. -/
theorem undefined_worker_name (env : Env) (args : Args)
    (henc : env.encryption_lib_path ≠ "")
    (hsrv : args.no_server = false → env.static_dist_exists = true)
    (hloc : args.location ≠ "") :
    pyMain env args =
      (cfgEvents ++ (parseLoop args.location (pySplit args.location)).1,
       .error (.nameError "PogoWorker")) ∧
    (parseLoop args.location (pySplit args.location)).1.all isLogEv = true := by
  obtain ⟨e1, es, hsplit⟩ : ∃ a l, pySplit args.location = a :: l := by
    cases hq : pySplit args.location with
    | nil => exact absurd hq (pySplit_ne_nil _)
    | cons a l => exact ⟨a, l, rfl⟩
  obtain ⟨m, hp⟩ := parseLoop_cons_err args.location e1 es
  have hb : (!args.no_server && !env.static_dist_exists) = false := by
    cases hns : args.no_server with
    | true => simp
    | false => simp [hsrv hns]
  constructor
  · unfold pyMain
    rw [if_neg henc, if_neg (by simp [hb]), hsplit, hp]
  · rw [hsplit, hp]
    rfl

theorem undefined_worker_name_witness :
    pyMain env0 argsReal =
      (cfgEvents ++ (parseLoop argsReal.location (pySplit argsReal.location)).1,
       .error (.nameError "PogoWorker")) ∧
    (parseLoop argsReal.location (pySplit argsReal.location)).1.all isLogEv = true :=
  undefined_worker_name env0 argsReal (by decide) (fun _ => rfl) (by decide)

theorem parseLoopResolved_geoArgs (locArg : String) :
    ∀ es : List String,
      (parseLoopResolved locArg es).1.filterMap geoPick =
        List.replicate (es.countP fun el => (coordMatch el).isNone) locArg := by
  intro es
  induction es with
  | nil => rfl
  | cons e rest ih =>
    cases hm : coordMatch e with
    | none =>
      simp [parseLoopResolved, hm, List.countP_cons, geoPick, ih,
        List.replicate_succ, List.filterMap_cons]
    | some p =>
      obtain ⟨g1, g2⟩ := p
      simp [parseLoopResolved, hm, List.countP_cons, geoPick, ih, List.filterMap_cons]

/-- Claim C9: in the parse loop (with the Location constructor name
abstracted; its failed resolution is the subject of the claim C2 theorem),
every geocoding call passes the whole unsplit `args.location` string —
the calls are `replicate` many copies of the same argument, one per
non-coordinate element, of which there is at least one under the
hypotheses — and the Location built for any non-coordinate element is
`geocoded args.location`, the same looked-up position for all of them. -/
theorem geocode_whole_argument (locArg elem : String)
    (hmem : elem ∈ pySplit locArg) (hnm : coordMatch elem = none) :
    (parseLoopResolved locArg (pySplit locArg)).1.filterMap geoPick =
      List.replicate ((pySplit locArg).countP fun el => (coordMatch el).isNone) locArg ∧
    1 ≤ (pySplit locArg).countP (fun el => (coordMatch el).isNone) ∧
    locOf locArg elem = Loc.mk (.geocoded locArg) none := by
  refine ⟨parseLoopResolved_geoArgs locArg (pySplit locArg), ?_, by simp [locOf, hnm]⟩
  exact List.countP_pos_iff.mpr ⟨elem, hmem, by simp [hnm]⟩

theorem geocode_whole_argument_witness :
    (parseLoopResolved "home|12.34,56.78" (pySplit "home|12.34,56.78")).1.filterMap geoPick =
      List.replicate ((pySplit "home|12.34,56.78").countP
        fun el => (coordMatch el).isNone) "home|12.34,56.78" ∧
    1 ≤ (pySplit "home|12.34,56.78").countP (fun el => (coordMatch el).isNone) ∧
    locOf "home|12.34,56.78" "home" = Loc.mk (.geocoded "home|12.34,56.78") none :=
  geocode_whole_argument "home|12.34,56.78" "home" (by decide) (by decide)

theorem startupTail_trace (args : Args) (env : Env) (l0 : Loc) (rest : List Loc) :
    (startupTail args env (l0 :: rest)).1 =
      aEvents args env (l0 :: rest) ++
        ([Event.signalAlloc 0, Event.signalClear 0] ++
          (startSearch args l0 (l0 :: rest) ++ bEvents args)) := by
  simp [startupTail]

theorem startSearch_real (args : Args) (l0 : Loc) (locs : List Loc)
    (ho : args.only_server = false) (hm : args.mock = false) :
    startSearch args l0 locs =
      [.logDebug "Starting a real search thread",
       .threadCreate .search_overseer_thread
         [.argsRef, .locationsRef locs, .signalRef 0, .encPathRef],
       .threadStart .search_overseer_thread
         [.argsRef, .locationsRef locs, .signalRef 0, .encPathRef]] := by
  unfold startSearch
  rw [ho, hm]

theorem startSearch_mock (args : Args) (l0 : Loc) (locs : List Loc)
    (ho : args.only_server = false) (hm : args.mock = true) :
    startSearch args l0 locs =
      [.logDebug "Starting a fake search thread",
       .insertMockData l0,
       .threadCreate .fake_search_loop [],
       .threadStart .fake_search_loop []] := by
  unfold startSearch
  rw [ho, hm]

/-- Claim C6 counterexample: in mock mode the fake search thread is
claimed to be handed the same shared pause signal as a real worker; at a
concrete mock-mode startup the only `fake_search_loop` thread creation
and start carry an empty argument list — no signal reference at all —
while the very same trace hands signal 0 to the control surface. -/
theorem fake_thread_no_signal_cex :
    (startupTail argsMock env0 [loc0]).1.filterMap fakeCreatePick = [[]] ∧
    (startupTail argsMock env0 [loc0]).1.filterMap fakeStartPick = [[]] ∧
    (startupTail argsMock env0 [loc0]).1.filterMap scPick = [0] :=
  ⟨rfl, rfl, rfl⟩

/-- Claim C6 (amended): in mock mode (search enabled) the fake search
thread is created and started with an empty argument tuple: it receives
neither the shared pause signal nor any shutdown signal, while the pause
signal (id 0) is handed to the control surface; so pausing the fleet does
not pause the mock worker. -/
theorem fake_thread_not_given_signal (args : Args) (env : Env) (l0 : Loc)
    (rest : List Loc) (hm : args.mock = true) (ho : args.only_server = false) :
    (startupTail args env (l0 :: rest)).1.filterMap fakeCreatePick = [[]] ∧
    (startupTail args env (l0 :: rest)).1.filterMap fakeStartPick = [[]] ∧
    (startupTail args env (l0 :: rest)).1.filterMap scPick = [0] := by
  rw [startupTail_trace, startSearch_mock args l0 (l0 :: rest) ho hm]
  refine ⟨?_, ?_, ?_⟩ <;>
    simp [List.filterMap_append, List.filterMap_cons,
      fm_aEvents fakeCreatePick plainA_fakeCreatePick,
      fm_aEvents fakeStartPick plainA_fakeStartPick,
      fm_aEvents scPick plainA_scPick,
      fm_bEvents fakeCreatePick rfl rfl rfl rfl rfl rfl rfl,
      fm_bEvents fakeStartPick rfl rfl rfl rfl rfl rfl rfl,
      scs_bEvents,
      fakeCreatePick, fakeStartPick, scPick]

theorem fake_thread_not_given_signal_witness :
    (startupTail argsMock env0 (loc0 :: [])).1.filterMap fakeCreatePick = [[]] ∧
    (startupTail argsMock env0 (loc0 :: [])).1.filterMap fakeStartPick = [[]] ∧
    (startupTail argsMock env0 (loc0 :: [])).1.filterMap scPick = [0] :=
  fake_thread_not_given_signal argsMock env0 loc0 [] rfl rfl

theorem aEvents_no_sigClear (args : Args) (env : Env) (locs : List Loc) :
    ∀ x ∈ aEvents args env locs, (!isSigClearEv x) = true := fun x hx => by
  rw [plainA_noSigClear x (isPlainA_of_mem_aEvents hx)]
  rfl

theorem aEvents_no_insert (args : Args) (env : Env) (locs : List Loc) :
    ∀ x ∈ aEvents args env locs, (!isInsertEv x) = true := fun x hx => by
  rw [plainA_noInsert x (isPlainA_of_mem_aEvents hx)]
  rfl

theorem aEvents_all_noThread (args : Args) (env : Env) (locs : List Loc) :
    (aEvents args env locs).all
      (fun e => !isThreadCreateEv e && !isThreadStartEv e) = true :=
  List.all_eq_true.mpr fun e he => by
    rw [plainA_noThreadCreate e (isPlainA_of_mem_aEvents he),
        plainA_noThreadStart e (isPlainA_of_mem_aEvents he)]
    rfl

theorem aEvents_all_noSigSet (args : Args) (env : Env) (locs : List Loc) :
    (aEvents args env locs).all (fun e => !isSigSetEv e) = true :=
  List.all_eq_true.mpr fun e he => by
    rw [plainA_noSigSet e (isPlainA_of_mem_aEvents he)]
    rfl

theorem bEvents_all_noSigSet (args : Args) :
    (bEvents args).all (fun e => !isSigSetEv e) = true :=
  List.all_eq_true.mpr fun e he => by
    rcases mem_bEvents he with h | h | h | h | h | h | h <;> subst h <;> rfl

theorem aEvents_all_sigMut (args : Args) (env : Env) (locs : List Loc) :
    (aEvents args env locs).all
      (fun e => !isSigMutEv e || decide (e = Event.signalClear 0)) = true :=
  List.all_eq_true.mpr fun e he => by
    rw [plainA_noSigMut e (isPlainA_of_mem_aEvents he)]
    rfl

theorem bEvents_all_sigMut (args : Args) :
    (bEvents args).all
      (fun e => !isSigMutEv e || decide (e = Event.signalClear 0)) = true :=
  List.all_eq_true.mpr fun e he => by
    rcases mem_bEvents he with h | h | h | h | h | h | h <;> subst h <;> rfl

/-- Claim C7: in mock mode (search enabled), with at least one bound
location, the startup trace performs exactly one `insert_mock_data` call,
on the first bound location; the only thread it creates and starts is the
`fake_search_loop` thread (so the `search_overseer_thread` — the only
component issuing live network scans — is never started); and the insert
happens strictly before the thread is created and started. -/
theorem mock_single_insert (args : Args) (env : Env) (l0 : Loc) (rest : List Loc)
    (hm : args.mock = true) (ho : args.only_server = false) :
    (startupTail args env (l0 :: rest)).1.filterMap insertPick = [l0] ∧
    (startupTail args env (l0 :: rest)).1.filterMap threadCreatePick =
      [(TargetFn.fake_search_loop, ([] : List ThreadArg))] ∧
    (startupTail args env (l0 :: rest)).1.filterMap threadStartPick =
      [(TargetFn.fake_search_loop, ([] : List ThreadArg))] ∧
    insertPrecedesThreads (startupTail args env (l0 :: rest)).1 = true := by
  rw [startupTail_trace, startSearch_mock args l0 (l0 :: rest) ho hm]
  refine ⟨?_, ?_, ?_, ?_⟩
  · simp [List.filterMap_append, List.filterMap_cons,
      fm_aEvents insertPick plainA_insertPick,
      fm_bEvents insertPick rfl rfl rfl rfl rfl rfl rfl, insertPick]
  · simp [List.filterMap_append, List.filterMap_cons,
      fm_aEvents threadCreatePick plainA_threadCreatePick,
      fm_bEvents threadCreatePick rfl rfl rfl rfl rfl rfl rfl, threadCreatePick]
  · simp [List.filterMap_append, List.filterMap_cons,
      fm_aEvents threadStartPick plainA_threadStartPick,
      fm_bEvents threadStartPick rfl rfl rfl rfl rfl rfl rfl, threadStartPick]
  · unfold insertPrecedesThreads
    rw [takeWhile_append_all _ (aEvents_no_insert args env (l0 :: rest))]
    simp only [List.takeWhile_cons, List.all_append, List.any_append,
      List.cons_append, Bool.and_eq_true, Bool.or_eq_true]
    simp [isInsertEv, isThreadCreateEv, isThreadStartEv]
    intro x hx
    exact ⟨plainA_noThreadCreate x (isPlainA_of_mem_aEvents hx),
           plainA_noThreadStart x (isPlainA_of_mem_aEvents hx)⟩

theorem mock_single_insert_witness :
    (startupTail argsMock env0 (loc0 :: [])).1.filterMap insertPick = [loc0] ∧
    (startupTail argsMock env0 (loc0 :: [])).1.filterMap threadCreatePick =
      [(TargetFn.fake_search_loop, ([] : List ThreadArg))] ∧
    (startupTail argsMock env0 (loc0 :: [])).1.filterMap threadStartPick =
      [(TargetFn.fake_search_loop, ([] : List ThreadArg))] ∧
    insertPrecedesThreads (startupTail argsMock env0 (loc0 :: [])).1 = true :=
  mock_single_insert argsMock env0 loc0 [] rfl rfl

/-- Claim C8: in a real-search startup the pause signal is allocated
exactly once (id 0); the very same id is both inside the argument tuple
handed to the `search_overseer_thread` thread and the argument of
`app.set_search_control`; and every operation performed on an allocated
signal in the whole trace is the single `clear` — an element of the
allowed set/clear/test repertoire. -/
theorem shared_pause_signal (args : Args) (env : Env) (l0 : Loc) (rest : List Loc)
    (ho : args.only_server = false) (hm : args.mock = false) :
    (startupTail args env (l0 :: rest)).1.filterMap allocPick = [0] ∧
    (startupTail args env (l0 :: rest)).1.filterMap overseerCreatePick =
      [[ThreadArg.argsRef, ThreadArg.locationsRef (l0 :: rest),
        ThreadArg.signalRef 0, ThreadArg.encPathRef]] ∧
    (startupTail args env (l0 :: rest)).1.filterMap scPick = [0] ∧
    (startupTail args env (l0 :: rest)).1.all
      (fun e => !isSigMutEv e || decide (e = Event.signalClear 0)) = true := by
  rw [startupTail_trace, startSearch_real args l0 (l0 :: rest) ho hm]
  refine ⟨?_, ?_, ?_, ?_⟩
  · simp [List.filterMap_append, List.filterMap_cons,
      fm_aEvents allocPick plainA_allocPick,
      fm_bEvents allocPick rfl rfl rfl rfl rfl rfl rfl, allocPick]
  · simp [List.filterMap_append, List.filterMap_cons,
      fm_aEvents overseerCreatePick plainA_overseerCreatePick,
      fm_bEvents overseerCreatePick rfl rfl rfl rfl rfl rfl rfl, overseerCreatePick]
  · simp [List.filterMap_append, List.filterMap_cons,
      fm_aEvents scPick plainA_scPick, scs_bEvents, scPick]
  · simp [List.all_append, isSigMutEv]
    constructor
    · intro x hx
      exact Or.inl (plainA_noSigMut x (isPlainA_of_mem_aEvents hx))
    · intro x hx
      rcases mem_bEvents hx with h | h | h | h | h | h | h <;> subst h <;>
        exact Or.inl rfl

theorem shared_pause_signal_witness :
    (startupTail argsReal env0 (loc0 :: [])).1.filterMap allocPick = [0] ∧
    (startupTail argsReal env0 (loc0 :: [])).1.filterMap overseerCreatePick =
      [[ThreadArg.argsRef, ThreadArg.locationsRef (loc0 :: []),
        ThreadArg.signalRef 0, ThreadArg.encPathRef]] ∧
    (startupTail argsReal env0 (loc0 :: [])).1.filterMap scPick = [0] ∧
    (startupTail argsReal env0 (loc0 :: [])).1.all
      (fun e => !isSigMutEv e || decide (e = Event.signalClear 0)) = true :=
  shared_pause_signal argsReal env0 loc0 [] rfl rfl

/-- Claim C10: in every startup that starts a search thread (real or
mock), a pause-signal clear occurs strictly before every thread creation
and start — the signal is explicitly cleared at lines 141-142 before the
thread block of lines 144-157 — and no event of the whole trace ever sets
the signal, so the fleet begins unpaused and pausing requires a later
explicit set by the control surface. -/
theorem pause_cleared_before_thread (args : Args) (env : Env) (l0 : Loc)
    (rest : List Loc) (ho : args.only_server = false) :
    clearPrecedesThreads (startupTail args env (l0 :: rest)).1 = true ∧
    (startupTail args env (l0 :: rest)).1.all (fun e => !isSigSetEv e) = true := by
  cases hmk : args.mock with
  | false =>
    rw [startupTail_trace, startSearch_real args l0 (l0 :: rest) ho hmk]
    constructor
    · unfold clearPrecedesThreads
      rw [takeWhile_append_all _ (aEvents_no_sigClear args env (l0 :: rest))]
      simp [List.takeWhile_cons, List.all_append, List.any_append,
        isSigClearEv, isThreadCreateEv, isThreadStartEv]
      intro x hx
      exact ⟨plainA_noThreadCreate x (isPlainA_of_mem_aEvents hx),
             plainA_noThreadStart x (isPlainA_of_mem_aEvents hx)⟩
    · simp [List.all_append, isSigSetEv]
      constructor
      · intro x hx
        exact plainA_noSigSet x (isPlainA_of_mem_aEvents hx)
      · intro x hx
        rcases mem_bEvents hx with h | h | h | h | h | h | h <;> subst h <;> rfl
  | true =>
    rw [startupTail_trace, startSearch_mock args l0 (l0 :: rest) ho hmk]
    constructor
    · unfold clearPrecedesThreads
      rw [takeWhile_append_all _ (aEvents_no_sigClear args env (l0 :: rest))]
      simp [List.takeWhile_cons, List.all_append, List.any_append,
        isSigClearEv, isThreadCreateEv, isThreadStartEv]
      intro x hx
      exact ⟨plainA_noThreadCreate x (isPlainA_of_mem_aEvents hx),
             plainA_noThreadStart x (isPlainA_of_mem_aEvents hx)⟩
    · simp [List.all_append, isSigSetEv]
      constructor
      · intro x hx
        exact plainA_noSigSet x (isPlainA_of_mem_aEvents hx)
      · intro x hx
        rcases mem_bEvents hx with h | h | h | h | h | h | h <;> subst h <;> rfl

theorem pause_cleared_before_thread_witness :
    clearPrecedesThreads (startupTail argsReal env0 (loc0 :: [])).1 = true ∧
    (startupTail argsReal env0 (loc0 :: [])).1.all (fun e => !isSigSetEv e) = true :=
  pause_cleared_before_thread argsReal env0 loc0 [] rfl

end Runserver
